import Mathlib

/-!
Verification of the breakout-room client state synchronizer
(`useFlagshipBreakoutSocket` hook, `FlagshipBreakoutService`, and
`flagshipBreakoutBackend`): a shallow embedding of the event
deduplicator/reducer, the hook's public operations, and the create-room
reconciling facade with its REST fallback chain, together with proofs of
the specified properties.

JavaScript conventions used throughout the embedding:
a JS `Map` is modelled as an insertion-ordered association list
(`set` updates in place or appends, `delete` removes, iteration order is
list order); JS string truthiness (`if (s)`) holds exactly when the string
is present and nonempty; JS number truthiness holds exactly when the
number is nonzero; an object or array is truthy exactly when present.
-/

set_option autoImplicit false

/-- JS `a || b` on an optional string: the string if present and nonempty
(truthy), otherwise the default. -/
def jsOrStr (o : Option String) (d : String) : String :=
  match o with
  | some s => if s = "" then d else s
  | none => d

/-- JS `a || b` on a string: `a` if nonempty (truthy), else `b`. -/
def jsOrS (a b : String) : String :=
  if a = "" then b else a

/-- JS `a || b` on an optional number: the number if present and nonzero
(truthy), otherwise the default. -/
def jsOrInt (o : Option Int) (d : Int) : Int :=
  match o with
  | some n => if n = 0 then d else n
  | none => d

/-- JS string truthiness on an optional string: `some s` survives only if
nonempty. -/
def strTruthy (o : Option String) : Option String :=
  match o with
  | some s => if s = "" then none else some s
  | none => none

/-- Whitespace characters removed by JS `String.prototype.trim` (the ones
relevant to this development). -/
def isWsChar (c : Char) : Bool :=
  c = ' ' ∨ c = '\t' ∨ c = '\n' ∨ c = '\r'

/-- JS `s.trim()`: strip leading and trailing whitespace. -/
def jsTrim (s : String) : String :=
  String.mk (((s.data.dropWhile isWsChar).reverse.dropWhile isWsChar).reverse)

/-- Insertion-ordered association list standing for a JS `Map`:
`set` replaces in place when the key exists, else appends. -/
def mapSet {α : Type} : List (String × α) → String → α → List (String × α)
  | [], k, v => [(k, v)]
  | (k', v') :: rest, k, v =>
      if k' = k then (k, v) :: rest else (k', v') :: mapSet rest k v

/-- JS `Map.get`: the value at the first matching key, if any. -/
def mapGet {α : Type} : List (String × α) → String → Option α
  | [], _ => none
  | (k', v') :: rest, k => if k' = k then some v' else mapGet rest k

/-- JS `Map.delete`: remove the entry with the given key. -/
def mapDelete {α : Type} (m : List (String × α)) (k : String) : List (String × α) :=
  m.filter (fun p => p.1 != k)

/-- A roster entry / participant record (the fields the synchronizer
reads: identifier and display alias). -/
structure Participant where
  id : String
  displayAlias : String
deriving DecidableEq, Repr

/-- A breakout room as held in the projection (`BreakoutRoom` of
`flagshipBreakoutBackend`, restricted to the fields the reducer and the
facade read or write). -/
structure Room where
  id : String
  name : String
  currentParticipants : Int
  maxParticipants : Int
  participants : List Participant
  status : String
deriving DecidableEq, Repr

/-- The event kinds of `SocketBreakoutEvent.type`. -/
inductive EventType where
  | room_created
  | room_updated
  | room_deleted
  | participant_joined
  | participant_left
  | participant_updated
  | message_received
  | moderation_action
  | auto_assignment_completed
  | recording_status_changed
  | room_status_changed
deriving DecidableEq, Repr

/-- The string name of each event kind, as it appears in the dedup key. -/
def eventTypeStr : EventType → String
  | .room_created => "room_created"
  | .room_updated => "room_updated"
  | .room_deleted => "room_deleted"
  | .participant_joined => "participant_joined"
  | .participant_left => "participant_left"
  | .participant_updated => "participant_updated"
  | .message_received => "message_received"
  | .moderation_action => "moderation_action"
  | .auto_assignment_completed => "auto_assignment_completed"
  | .recording_status_changed => "recording_status_changed"
  | .room_status_changed => "room_status_changed"

/-- One record of `event.data.assignments` consumed by the
`auto_assignment_completed` branch. -/
structure Assignment where
  roomId : String
  participant : Option Participant
deriving DecidableEq, Repr

/-- The kind-specific payload `event.data`: each field is optional because
the payload is untyped (`any`) in the source. -/
structure EventData where
  room : Option Room
  participant : Option Participant
  participantCount : Option Int
  participants : Option (List Participant)
  status : Option String
  assignments : Option (List Assignment)
deriving DecidableEq, Repr

/-- The event envelope `SocketBreakoutEvent`. -/
structure SocketBreakoutEvent where
  type : EventType
  sessionId : String
  roomId : Option String
  participantId : Option String
  data : EventData
  timestamp : String
deriving DecidableEq, Repr

/-- The hook's connection status enum. -/
inductive ConnStatus where
  | connected
  | connecting
  | disconnected
  | error
deriving DecidableEq, Repr

/-- The projection `RealtimeBreakoutState` held by the hook. -/
structure BreakoutState where
  rooms : List (String × Room)
  participants : List (String × Participant)
  currentRoom : Option String
  lastUpdate : String
  connectionStatus : ConnStatus
  messageQueue : List SocketBreakoutEvent
deriving DecidableEq, Repr

/-- The deduplication key
`` `${event.type}_${event.roomId || 'global'}_${event.timestamp}` ``. -/
def eventKey (e : SocketBreakoutEvent) : String :=
  eventTypeStr e.type ++ "_" ++ jsOrStr e.roomId "global" ++ "_" ++ e.timestamp

/-- The part of the projection mutated by the reducer's switch: the rooms
map, the participants map, and the current-room pointer. -/
structure CoreState where
  rooms : List (String × Room)
  participants : List (String × Participant)
  currentRoom : Option String
deriving DecidableEq, Repr

/-- The per-kind folding switch of `processEvent`: one case per event
kind, translated branch by branch from the source (JS truthiness guards
on identifiers, `||` defaulting on the participant count and roster). -/
def applyEventCore (c : CoreState) (e : SocketBreakoutEvent) : CoreState :=
  match e.type with
  | .room_created | .room_updated =>
      match e.data.room with
      | some r => { c with rooms := mapSet c.rooms r.id r }
      | none => c
  | .room_deleted =>
      match strTruthy e.roomId with
      | some rid =>
          { c with rooms := mapDelete c.rooms rid,
                   currentRoom := if c.currentRoom = some rid then none else c.currentRoom }
      | none => c
  | .participant_joined | .participant_updated =>
      match e.data.participant, strTruthy e.roomId with
      | some p, some rid =>
          let parts := mapSet c.participants p.id p
          match mapGet c.rooms rid with
          | some room =>
              let updatedRoom :=
                { room with
                    currentParticipants := jsOrInt e.data.participantCount room.currentParticipants,
                    participants := e.data.participants.getD room.participants }
              { c with participants := parts, rooms := mapSet c.rooms rid updatedRoom }
          | none => { c with participants := parts }
      | _, _ => c
  | .participant_left =>
      match strTruthy e.participantId, strTruthy e.roomId with
      | some pid, some rid =>
          let parts := mapDelete c.participants pid
          match mapGet c.rooms rid with
          | some room =>
              let updatedRoom :=
                { room with
                    currentParticipants := max 0 (room.currentParticipants - 1),
                    participants := room.participants.filter (fun p => p.id != pid) }
              { c with participants := parts, rooms := mapSet c.rooms rid updatedRoom }
          | none => { c with participants := parts }
      | _, _ => c
  | .auto_assignment_completed =>
      match e.data.assignments with
      | some as =>
          { c with participants :=
              as.foldl (fun ps a =>
                match mapGet c.rooms a.roomId, a.participant with
                | some _, some p => mapSet ps p.id p
                | _, _ => ps) c.participants }
      | none => c
  | .room_status_changed =>
      match strTruthy e.roomId, strTruthy e.data.status with
      | some rid, some s =>
          match mapGet c.rooms rid with
          | some room => { c with rooms := mapSet c.rooms rid { room with status := s } }
          | none => c
      | _, _ => c
  | .message_received | .moderation_action | .recording_status_changed => c

/-- Fold one event into the projection: run the switch on the core fields
and leave the rest of the state untouched (the `lastUpdate` stamp is set
by `processEvent`). -/
def applyEvent (st : BreakoutState) (e : SocketBreakoutEvent) : BreakoutState :=
  let c := applyEventCore ⟨st.rooms, st.participants, st.currentRoom⟩ e
  { st with rooms := c.rooms, participants := c.participants, currentRoom := c.currentRoom }

/-- The hook's mutable state relevant to event processing: the projection
plus the dedup memory (`eventHandlers.current` keys in insertion order). -/
structure HookState where
  st : BreakoutState
  dedup : List String
deriving DecidableEq, Repr

/-- The reducer `processEvent`: drop the event when its dedup key has been seen;
otherwise record the key, evict the oldest 500 keys once the memory
exceeds 1000 entries, fold the event, and stamp `lastUpdate` with the
event's timestamp. -/
def processEvent (h : HookState) (e : SocketBreakoutEvent) : HookState :=
  let key := eventKey e
  if key ∈ h.dedup then h
  else
    let dedup1 := h.dedup ++ [key]
    let dedup2 := if dedup1.length > 1000 then dedup1.drop 500 else dedup1
    { st := { applyEvent h.st e with lastUpdate := e.timestamp }, dedup := dedup2 }

/-- The hook's `clearCache`: reset the rooms map, the participants map and the
message queue, and clear the dedup memory; the current-room pointer, the
`lastUpdate` stamp and the connection status are left as they are. -/
def clearCache (h : HookState) : HookState :=
  { st := { h.st with rooms := [], participants := [], messageQueue := [] },
    dedup := [] }

/-- The hook's initial state: empty maps, no current room, the
construction-time timestamp, disconnected. -/
def initialHookState (now : String) : HookState :=
  { st := { rooms := [], participants := [], currentRoom := none,
            lastUpdate := now, connectionStatus := .disconnected, messageQueue := [] },
    dedup := [] }

/-- The hook's derived `currentRoom` value:
`state.currentRoom ? state.rooms.get(state.currentRoom) || null : null`
(an empty-string identifier is falsy in JS, hence yields `null`). -/
def derivedCurrentRoom (st : BreakoutState) : Option Room :=
  match st.currentRoom with
  | some rid => if rid = "" then none else mapGet st.rooms rid
  | none => none

/-- The names of outbound socket events emitted by the hook's
operations. -/
inductive EmitName where
  | create_breakout_room
  | join_breakout_room
  | leave_breakout_room
  | update_breakout_room
  | delete_breakout_room
  | update_breakout_participant
  | moderate_breakout_participant
  | send_breakout_message
  | send_breakout_reaction
deriving DecidableEq, Repr

/-- One outbound emit: the event name plus the room identifier it targets
(payload bodies — configs, messages, timestamps — are opaque to the
properties proved here). -/
structure HookEmit where
  name : EmitName
  roomId : Option String
deriving DecidableEq, Repr

/-- Hook `createRoom`: throws `Socket not connected` unless connected,
otherwise emits `create_breakout_room`. -/
def createRoom (st : BreakoutState) : Except String (List HookEmit × BreakoutState) :=
  if st.connectionStatus ≠ .connected then .error "Socket not connected"
  else .ok ([⟨.create_breakout_room, none⟩], st)

/-- Hook `joinRoom`: throws unless connected; emits `join_breakout_room`
and optimistically sets the current-room pointer. -/
def joinRoom (st : BreakoutState) (roomId : String) : Except String (List HookEmit × BreakoutState) :=
  if st.connectionStatus ≠ .connected then .error "Socket not connected"
  else .ok ([⟨.join_breakout_room, some roomId⟩], { st with currentRoom := some roomId })

/-- Hook `leaveRoom`: throws unless connected; emits `leave_breakout_room`
and clears the current-room pointer only when it matches the room left. -/
def leaveRoom (st : BreakoutState) (roomId : String) : Except String (List HookEmit × BreakoutState) :=
  if st.connectionStatus ≠ .connected then .error "Socket not connected"
  else .ok ([⟨.leave_breakout_room, some roomId⟩],
            { st with currentRoom := if st.currentRoom = some roomId then none else st.currentRoom })

/-- Hook `sendMessage`: throws unless connected; emits
`send_breakout_message`. -/
def sendMessage (st : BreakoutState) (roomId : String) : Except String (List HookEmit × BreakoutState) :=
  if st.connectionStatus ≠ .connected then .error "Socket not connected"
  else .ok ([⟨.send_breakout_message, some roomId⟩], st)

/-- Hook `updateRoom`: emits `update_breakout_room` unconditionally — the
source performs no connection-status check in this operation. -/
def updateRoom (st : BreakoutState) (roomId : String) : Except String (List HookEmit × BreakoutState) :=
  .ok ([⟨.update_breakout_room, some roomId⟩], st)

/-- Hook `deleteRoom`: emits `delete_breakout_room` unconditionally (no
connection-status check in the source). -/
def deleteRoom (st : BreakoutState) (roomId : String) : Except String (List HookEmit × BreakoutState) :=
  .ok ([⟨.delete_breakout_room, some roomId⟩], st)

/-- Hook `updateParticipant`: emits `update_breakout_participant`
unconditionally (no connection-status check in the source). -/
def updateParticipant (st : BreakoutState) (roomId _participantId : String) :
    Except String (List HookEmit × BreakoutState) :=
  .ok ([⟨.update_breakout_participant, some roomId⟩], st)

/-- Hook `moderateParticipant`: emits `moderate_breakout_participant`
unconditionally (no connection-status check in the source). -/
def moderateParticipant (st : BreakoutState) (roomId : String) :
    Except String (List HookEmit × BreakoutState) :=
  .ok ([⟨.moderate_breakout_participant, some roomId⟩], st)

/-- Hook `sendReaction`: emits `send_breakout_reaction` unconditionally
(no connection-status check in the source). -/
def sendReaction (st : BreakoutState) (roomId : String) :
    Except String (List HookEmit × BreakoutState) :=
  .ok ([⟨.send_breakout_reaction, some roomId⟩], st)

/-- The create-room configuration (`CreateRoomConfig` of the service,
restricted to the validated and payload-relevant fields). -/
structure CreateRoomConfig where
  name : String
  topic : Option String
  maxParticipants : Int
  duration : Int
  facilitatorId : String
deriving DecidableEq, Repr

/-- External effects of the facade's create path, recorded as a trace:
the debug-permissions fetch, the permission check, the socket emit, the
backend-adapter POST, the API-service POST, the legacy POST, a room-list
GET, and a timer sleep. -/
inductive NetAction where
  | debugFetch
  | permissionCheck
  | socketEmitCreate
  | backendCreate
  | apiCreate
  | legacyCreate
  | listRooms
  | sleepMs (ms : Nat)
deriving DecidableEq, Repr

/-- Result of `validateSessionPermissions` (external collaborator). -/
structure PermissionResult where
  valid : Bool
  error : Option String
deriving DecidableEq, Repr

/-- Result of `flagshipBreakoutBackend.createBreakoutRoom`. -/
structure BackendCreateResult where
  success : Bool
  room : Option Room
  error : Option String
deriving DecidableEq, Repr

/-- Result of `FlagshipSanctuaryApi.createBreakoutRoom`; `extractedRoom`
stands for the room the source extracts on success via
`res.room || res.data?.room || res.data`. -/
structure ApiCreateResult where
  success : Bool
  extractedRoom : Room
  error : Option String
deriving DecidableEq, Repr

/-- Response of the legacy-endpoint fetch; `extractedRoom` stands for
`data.data?.room || data.room || data` when the response is ok. -/
structure LegacyResult where
  ok : Bool
  status : Nat
  statusText : String
  extractedRoom : Room
deriving DecidableEq, Repr

/-- Result of one `getBreakoutRooms` list query: `rooms` is absent when
the response carried no array. -/
structure RoomsQueryResult where
  success : Bool
  rooms : Option (List Room)
deriving DecidableEq, Repr

/-- The environment of external REST outcomes consumed by
`createRoomViaAPI`: the auth token and its validity, the three create
attempts' responses, and the list-query response for each poll attempt. -/
structure ApiEnv where
  token : Option String
  tokenValid : Bool
  backendRes : BackendCreateResult
  apiRes : ApiCreateResult
  legacyRes : LegacyResult
  listAt : Nat → RoomsQueryResult

/-- Does `pat` occur as a contiguous sublist of `l`? -/
def listHasInfix (pat l : List Char) : Bool :=
  l.tails.any (fun t => pat.isPrefixOf t)

/-- The regex test `/404|Not Found/i.test(err)`: the error mentions
`404` or, case-insensitively, `not found`. -/
def is404Error (s : String) : Bool :=
  listHasInfix "404".data s.data ∨ listHasInfix "not found".data (s.data.map Char.toLower)

/-- One poll attempt's outcome: `resp.success && resp.rooms` guard, then
`rooms.find(r => r.name === name)`. -/
def pollFound (res : RoomsQueryResult) (name : String) : Option Room :=
  match (if res.success then res.rooms else none) with
  | some rooms => rooms.find? (fun r => r.name == name)
  | none => none

/-- The loop body of `pollForRoomByName`: at each remaining attempt run
the list query, return the first room whose name matches, otherwise sleep
`intervalMs` and retry; gives the found room (if any) and the trace of
queries and sleeps. -/
def pollLoop (listAt : Nat → RoomsQueryResult) (name : String) (intervalMs : Nat) :
    Nat → Nat → Option Room × List NetAction
  | _, 0 => (none, [])
  | attempt, fuel + 1 =>
      match pollFound (listAt attempt) name with
      | some r => (some r, [.listRooms])
      | none =>
          let next := pollLoop listAt name intervalMs (attempt + 1) fuel
          (next.1, .listRooms :: .sleepMs intervalMs :: next.2)

/-- The recovery poll `pollForRoomByName`: up to `maxAttempts` list queries spaced by
`intervalMs` milliseconds, looking for a room with the given name. -/
def pollForRoomByName (listAt : Nat → RoomsQueryResult) (name : String)
    (maxAttempts intervalMs : Nat) : Option Room × List NetAction :=
  pollLoop listAt name intervalMs 0 maxAttempts

/-- The REST path `createRoomViaAPI`: the REST fallback chain — auth-token checks, the
backend adapter, the API service, then (only when the API error mentions
404) the legacy endpoint, and finally the poll-by-name recovery; a thrown
error is the `Except.error` case. -/
def createRoomViaAPI (env : ApiEnv) (cfg : CreateRoomConfig) :
    Except String Room × List NetAction :=
  match env.token with
  | none => (.error "No authentication token available", [])
  | some tk =>
      if tk = "" then (.error "No authentication token available", [])
      else if ¬ env.tokenValid then (.error "Authentication token is invalid or expired", [])
      else
        match (if env.backendRes.success then env.backendRes.room else none) with
        | some r => (.ok r, [.backendCreate])
        | none =>
            if env.apiRes.success then
              (.ok env.apiRes.extractedRoom, [.backendCreate, .apiCreate])
            else
              match env.apiRes.error with
              | some err =>
                  if is404Error err then
                    if env.legacyRes.ok then
                      (.ok env.legacyRes.extractedRoom, [.backendCreate, .apiCreate, .legacyCreate])
                    else
                      let poll := pollForRoomByName env.listAt cfg.name 6 1000
                      match poll.1 with
                      | some r =>
                          (.ok r, [.backendCreate, .apiCreate, .legacyCreate] ++ poll.2)
                      | none =>
                          (.error ("HTTP " ++ toString env.legacyRes.status ++ ": " ++
                                     env.legacyRes.statusText),
                           [.backendCreate, .apiCreate, .legacyCreate] ++ poll.2)
                  else (.error (jsOrS err "API returned failure creating room"),
                        [.backendCreate, .apiCreate])
              | none => (.error "API returned failure creating room", [.backendCreate, .apiCreate])

/-- The payload of an inbound `breakout_room_created` event. -/
structure CreatedEventData where
  sessionId : String
  room : Option Room
deriving DecidableEq, Repr

/-- An inbound socket occurrence the create-room acknowledgment wait
listens for. -/
inductive SockCreateEv where
  | created (d : CreatedEventData)
  | createError (msg : Option String)
deriving DecidableEq, Repr

/-- Outcome of the acknowledgment race. -/
inductive RaceOutcome where
  | success (room : Room)
  | errorResolved (msg : Option String)
  | timeout
deriving DecidableEq, Repr

/-- The acknowledgment race of the socket create path: scan the inbound
occurrences in arrival order (times in milliseconds after the emit,
nondecreasing); the 8000 ms timer fires before any occurrence at or after
8000 ms; a `created` occurrence resolves success only when it matches the
session and the requested room name; any `create_error` occurrence
resolves the error branch. -/
def resolveRace (sid name : String) : List (Nat × SockCreateEv) → RaceOutcome
  | [] => .timeout
  | (t, ev) :: rest =>
      if 8000 ≤ t then .timeout
      else
        match ev with
        | .created d =>
            match d.room with
            | some r =>
                if d.sessionId = sid ∧ r.name = name then .success r
                else resolveRace sid name rest
            | none => resolveRace sid name rest
        | .createError m => .errorResolved m

/-- The environment of external outcomes consumed by the facade's
`createBreakoutRoom`: the permission check, the socket connection flag,
the inbound acknowledgment timeline, and the REST environment. -/
structure CreateEnv where
  permission : PermissionResult
  socketConnected : Bool
  socketTimeline : List (Nat × SockCreateEv)
  api : ApiEnv

/-- The `{ success, room?, error? }` result shape of the facade. -/
structure CreateResult where
  success : Bool
  room : Option Room
  error : Option String
deriving DecidableEq, Repr

/-- Convert the REST chain's outcome into the facade result (the outer
catch turns a thrown error's message into the error field). -/
def wrapApi : Except String Room → CreateResult
  | .ok r => { success := true, room := some r, error := none }
  | .error m => { success := false, room := none, error := some m }

/-- The facade operation `FlagshipBreakoutService.createBreakoutRoom`: validate the name and
the participant bound before any network call; then the debug fetch and
the permission check; then, when the socket is connected, the
acknowledgment race with REST fallback on timeout or error, else the REST
chain directly. -/
def createBreakoutRoom (env : CreateEnv) (sid : String) (cfg : CreateRoomConfig) :
    CreateResult × List NetAction :=
  if jsTrim cfg.name = "" then
    ({ success := false, room := none, error := some "Room name is required" }, [])
  else if cfg.maxParticipants < 2 ∨ 20 < cfg.maxParticipants then
    ({ success := false, room := none, error := some "Max participants must be between 2 and 20" }, [])
  else if ¬ env.permission.valid then
    ({ success := false, room := none,
       error := some (jsOrStr env.permission.error
                        "Insufficient permissions to create breakout rooms") },
     [.debugFetch, .permissionCheck])
  else if env.socketConnected then
    match resolveRace sid cfg.name env.socketTimeline with
    | .success r =>
        ({ success := true, room := some r, error := none },
         [.debugFetch, .permissionCheck, .socketEmitCreate])
    | _ =>
        let rest := createRoomViaAPI env.api cfg
        (wrapApi rest.1, [.debugFetch, .permissionCheck, .socketEmitCreate] ++ rest.2)
  else
    let rest := createRoomViaAPI env.api cfg
    (wrapApi rest.1, [.debugFetch, .permissionCheck] ++ rest.2)

theorem mapGet_mapSet_self {α : Type} (m : List (String × α)) (k : String) (v : α) :
    mapGet (mapSet m k v) k = some v := by
  induction m with
  | nil => simp [mapSet, mapGet]
  | cons p rest ih =>
      obtain ⟨k', v'⟩ := p
      by_cases hk : k' = k
      · subst hk
        simp [mapSet, mapGet]
      · simp [mapSet, mapGet, hk, ih]

theorem mapGet_mapDelete_self {α : Type} (m : List (String × α)) (k : String) :
    mapGet (mapDelete m k) k = none := by
  induction m with
  | nil => simp [mapDelete, mapGet]
  | cons p rest ih =>
      obtain ⟨k', v'⟩ := p
      by_cases hk : k' = k
      · subst hk
        simpa [mapDelete, List.filter_cons] using ih
      · simpa [mapDelete, List.filter_cons, bne_iff_ne, hk, mapGet] using ih

theorem processEvent_of_mem (h : HookState) (e : SocketBreakoutEvent)
    (hm : eventKey e ∈ h.dedup) : processEvent h e = h := by
  simp [processEvent, hm]

theorem processEvent_not_mem (h : HookState) (e : SocketBreakoutEvent)
    (hm : eventKey e ∉ h.dedup) :
    processEvent h e =
      { st := { applyEvent h.st e with lastUpdate := e.timestamp },
        dedup := if (h.dedup ++ [eventKey e]).length > 1000
                 then (h.dedup ++ [eventKey e]).drop 500
                 else h.dedup ++ [eventKey e] } := by
  simp [processEvent, hm]

theorem mem_drop_append {α : Type} (l : List α) (k : α) (n : Nat) (h : n ≤ l.length) :
    k ∈ (l ++ [k]).drop n := by
  rw [List.drop_append_of_le_length h]
  exact List.mem_append_right _ (List.mem_singleton_self k)

theorem eventKey_mem_processEvent (h : HookState) (e : SocketBreakoutEvent) :
    eventKey e ∈ (processEvent h e).dedup := by
  by_cases hm : eventKey e ∈ h.dedup
  · rw [processEvent_of_mem h e hm]
    exact hm
  · rw [processEvent_not_mem h e hm]
    dsimp only
    split
    · next hgt =>
        apply mem_drop_append
        simp only [List.length_append, List.length_singleton] at hgt
        omega
    · exact List.mem_append_right _ (List.mem_singleton_self _)

/-- C1: feeding the reducer the same event twice yields the same state as
feeding it once, and an event whose deduplication key has already been
seen is dropped with no change at all (rooms, participants, current-room
pointer and last-update timestamp included). -/
theorem c1_duplicate_event_dropped (h : HookState) (e : SocketBreakoutEvent) :
    processEvent (processEvent h e) e = processEvent h e ∧
    (eventKey e ∈ h.dedup → processEvent h e = h) :=
  ⟨processEvent_of_mem _ _ (eventKey_mem_processEvent h e), processEvent_of_mem h e⟩

def c1Event : SocketBreakoutEvent :=
  { type := .participant_left
    sessionId := "s"
    roomId := some "r1"
    participantId := some "p2"
    data := ⟨none, none, none, none, none, none⟩
    timestamp := "t1" }

def c1Hook : HookState :=
  { st := { rooms := [("r1", { id := "r1", name := "Focus", currentParticipants := 3,
                               maxParticipants := 8, participants := [⟨"p1", "A"⟩, ⟨"p2", "B"⟩],
                               status := "active" })]
            participants := [("p1", ⟨"p1", "A"⟩), ("p2", ⟨"p2", "B"⟩)]
            currentRoom := none
            lastUpdate := "t0"
            connectionStatus := .connected
            messageQueue := [] }
    dedup := ["participant_left_r1_t1"] }

/-- Witness for C1 at a concrete state whose dedup memory already holds
the event's key. -/
theorem c1_witness :
    processEvent (processEvent c1Hook c1Event) c1Event = processEvent c1Hook c1Event ∧
    processEvent c1Hook c1Event = c1Hook :=
  ⟨(c1_duplicate_event_dropped c1Hook c1Event).1,
   (c1_duplicate_event_dropped c1Hook c1Event).2 (by decide)⟩

/-- C2: a first-seen `participant_left` event carrying a (truthy) room and
participant identifier, for a room present in the projection, leaves the
room with occupancy `max 0 (n - 1)`, a roster with the participant
filtered out, and removes the participant from the participants map. -/
theorem c2_participant_left_folding (h : HookState) (e : SocketBreakoutEvent)
    (pid rid : String) (room : Room)
    (hfresh : eventKey e ∉ h.dedup)
    (htype : e.type = .participant_left)
    (hpid : e.participantId = some pid) (hpidne : pid ≠ "")
    (hrid : e.roomId = some rid) (hridne : rid ≠ "")
    (hroom : mapGet h.st.rooms rid = some room) :
    ∃ room', mapGet (processEvent h e).st.rooms rid = some room' ∧
      room'.currentParticipants = max 0 (room.currentParticipants - 1) ∧
      (∀ p ∈ room'.participants, p.id ≠ pid) ∧
      mapGet (processEvent h e).st.participants pid = none := by
  rw [processEvent_not_mem h e hfresh]
  dsimp only [applyEvent]
  simp only [applyEventCore, htype, hpid, hrid, strTruthy, if_neg hpidne, if_neg hridne, hroom]
  refine ⟨_, mapGet_mapSet_self _ _ _, rfl, ?_, mapGet_mapDelete_self _ _⟩
  intro p hp
  have := (List.mem_filter.mp hp).2
  simpa [bne_iff_ne] using this

def c2Room : Room :=
  { id := "r1", name := "Focus", currentParticipants := 3, maxParticipants := 8,
    participants := [⟨"p1", "A"⟩, ⟨"p2", "B"⟩], status := "active" }

def c2Hook : HookState :=
  { st := { rooms := [("r1", c2Room)]
            participants := [("p1", ⟨"p1", "A"⟩), ("p2", ⟨"p2", "B"⟩)]
            currentRoom := none
            lastUpdate := "t0"
            connectionStatus := .connected
            messageQueue := [] }
    dedup := [] }

def c2Event : SocketBreakoutEvent :=
  { type := .participant_left
    sessionId := "s"
    roomId := some "r1"
    participantId := some "p2"
    data := ⟨none, none, none, none, none, none⟩
    timestamp := "t1" }

/-- Witness for C2 at a concrete room with occupancy 3 losing `p2`. -/
theorem c2_witness :
    ∃ room', mapGet (processEvent c2Hook c2Event).st.rooms "r1" = some room' ∧
      room'.currentParticipants = max 0 (c2Room.currentParticipants - 1) ∧
      (∀ p ∈ room'.participants, p.id ≠ "p2") ∧
      mapGet (processEvent c2Hook c2Event).st.participants "p2" = none :=
  c2_participant_left_folding c2Hook c2Event "p2" "r1" c2Room (by decide) rfl rfl
    (by decide) rfl (by decide) rfl

def c3Room : Room :=
  { id := "r1", name := "Focus", currentParticipants := 3, maxParticipants := 8,
    participants := [⟨"p1", "A"⟩], status := "active" }

def c3Hook : HookState :=
  { st := { rooms := [("r1", c3Room)]
            participants := [("p1", ⟨"p1", "A"⟩)]
            currentRoom := none
            lastUpdate := "t0"
            connectionStatus := .connected
            messageQueue := [] }
    dedup := [] }

/-- A first-seen `participant_joined` event whose payload reports a
participant count of `0` for room `r1`. -/
def c3Event : SocketBreakoutEvent :=
  { type := .participant_joined
    sessionId := "s"
    roomId := some "r1"
    participantId := none
    data := ⟨none, some ⟨"p9", "Z"⟩, some 0, none, none, none⟩
    timestamp := "t1" }

/-- Counterexample to C3 as stated: the payload supplies a participant
count of `0`, yet after folding the room's occupancy is still the locally
held `3`, not the supplied `0` — `event.data.participantCount || ...`
treats `0` as absent because `0` is falsy in JS. -/
theorem c3_counterexample :
    c3Event.data.participantCount = some 0 ∧
    (mapGet (processEvent c3Hook c3Event).st.rooms "r1").map Room.currentParticipants = some 3 ∧
    ¬ ((mapGet (processEvent c3Hook c3Event).st.rooms "r1").map Room.currentParticipants
        = some 0) :=
  ⟨rfl, by decide, by decide⟩

/-- C3 (amended): a first-seen `participant_joined` / `participant_updated`
event carrying a participant and a (truthy) room identifier of a room in
the projection upserts that participant by identifier; a supplied nonzero
participant count overwrites the room's occupancy, while a supplied count
of `0` (like an absent one) leaves the local occupancy in place; a
supplied roster — including an empty one — always overwrites the room's
roster. -/
theorem c3_participant_upsert (h : HookState) (e : SocketBreakoutEvent)
    (p : Participant) (rid : String) (room : Room)
    (hfresh : eventKey e ∉ h.dedup)
    (htype : e.type = .participant_joined ∨ e.type = .participant_updated)
    (hp : e.data.participant = some p)
    (hrid : e.roomId = some rid) (hridne : rid ≠ "")
    (hroom : mapGet h.st.rooms rid = some room) :
    mapGet (processEvent h e).st.participants p.id = some p ∧
    ∃ room', mapGet (processEvent h e).st.rooms rid = some room' ∧
      (∀ n, e.data.participantCount = some n → n ≠ 0 → room'.currentParticipants = n) ∧
      (e.data.participantCount = some 0 ∨ e.data.participantCount = none →
        room'.currentParticipants = room.currentParticipants) ∧
      (∀ l, e.data.participants = some l → room'.participants = l) ∧
      (e.data.participants = none → room'.participants = room.participants) := by
  rw [processEvent_not_mem h e hfresh]
  dsimp only [applyEvent]
  rcases htype with ht | ht <;>
  · simp only [applyEventCore, ht, hp, hrid, strTruthy, if_neg hridne, hroom]
    refine ⟨mapGet_mapSet_self _ _ _, _, mapGet_mapSet_self _ _ _, ?_, ?_, ?_, ?_⟩
    · intro n hn hn0
      simp [jsOrInt, hn, hn0]
    · rintro (hc | hc) <;> simp [jsOrInt, hc]
    · intro l hl
      simp [hl]
    · intro hl
      simp [hl]

def c3wRoom : Room :=
  { id := "r2", name := "Deep", currentParticipants := 1, maxParticipants := 8,
    participants := [⟨"p1", "A"⟩], status := "active" }

def c3wHook : HookState :=
  { st := { rooms := [("r2", c3wRoom)]
            participants := []
            currentRoom := none
            lastUpdate := "t0"
            connectionStatus := .connected
            messageQueue := [] }
    dedup := [] }

def c3wEvent : SocketBreakoutEvent :=
  { type := .participant_updated
    sessionId := "s"
    roomId := some "r2"
    participantId := none
    data := ⟨none, some ⟨"p7", "G"⟩, some 5, some [⟨"p7", "G"⟩], none, none⟩
    timestamp := "t2" }

/-- Witness for the amended C3 at a concrete event supplying count 5 and a
one-entry roster. -/
theorem c3_witness :
    mapGet (processEvent c3wHook c3wEvent).st.participants "p7" = some ⟨"p7", "G"⟩ ∧
    ∃ room', mapGet (processEvent c3wHook c3wEvent).st.rooms "r2" = some room' ∧
      (∀ n, c3wEvent.data.participantCount = some n → n ≠ 0 → room'.currentParticipants = n) ∧
      (c3wEvent.data.participantCount = some 0 ∨ c3wEvent.data.participantCount = none →
        room'.currentParticipants = c3wRoom.currentParticipants) ∧
      (∀ l, c3wEvent.data.participants = some l → room'.participants = l) ∧
      (c3wEvent.data.participants = none → room'.participants = c3wRoom.participants) :=
  c3_participant_upsert c3wHook c3wEvent ⟨"p7", "G"⟩ "r2" c3wRoom (by decide) (.inr rfl)
    rfl rfl (by decide) rfl

theorem processEvent_dedup_length_le (h : HookState) (e : SocketBreakoutEvent)
    (hle : h.dedup.length ≤ 1000) : (processEvent h e).dedup.length ≤ 1000 := by
  by_cases hm : eventKey e ∈ h.dedup
  · rw [processEvent_of_mem h e hm]
    exact hle
  · rw [processEvent_not_mem h e hm]
    dsimp only
    split
    · simp only [List.length_drop, List.length_append, List.length_singleton]
      omega
    · next hng =>
        simp only [List.length_append, List.length_singleton] at hng ⊢
        omega

theorem foldl_processEvent_dedup_le (events : List SocketBreakoutEvent) (h : HookState)
    (hle : h.dedup.length ≤ 1000) :
    (events.foldl processEvent h).dedup.length ≤ 1000 := by
  induction events generalizing h with
  | nil => exact hle
  | cons e rest ih => exact ih _ (processEvent_dedup_length_le h e hle)

theorem foldl_processEvent_dedup_distinct (events : List SocketBreakoutEvent) (h : HookState)
    (hnd : (h.dedup ++ events.map eventKey).Nodup)
    (hlen : h.dedup.length + events.length ≤ 1000) :
    (events.foldl processEvent h).dedup = h.dedup ++ events.map eventKey := by
  induction events generalizing h with
  | nil => simp
  | cons e rest ih =>
      have hdisj := List.nodup_append.mp hnd
      have hkey : eventKey e ∉ h.dedup := by
        intro hmem
        exact hdisj.2.2 hmem (List.mem_cons_self _ _)
      have hstep : (processEvent h e).dedup = h.dedup ++ [eventKey e] := by
        rw [processEvent_not_mem h e hkey]
        dsimp only
        rw [if_neg]
        simp only [List.length_append, List.length_singleton, List.length_cons,
          List.length_nil] at hlen ⊢
        omega
      have ih' := ih (processEvent h e)
        (by
          rw [hstep, List.append_assoc]
          simpa using hnd)
        (by
          rw [hstep]
          simp only [List.length_append, List.length_singleton, List.length_cons,
            List.length_nil] at hlen ⊢
          omega)
      rw [List.foldl_cons, ih', hstep, List.append_assoc]
      simp

/-- C4: the deduplication memory stays bounded by 1000 keys across any
event sequence started below the bound; once an insertion pushes it past
1000 keys the oldest 500 keys (by insertion order) are evicted; hence
folding 1001 events with pairwise-distinct keys from the initial state
leaves exactly the most recent 501 keys. -/
theorem c4_dedup_memory_bounded (events : List SocketBreakoutEvent) (now : String)
    (hnd : (events.map eventKey).Nodup) (hlen : events.length = 1001) :
    (∀ (evs : List SocketBreakoutEvent) (h : HookState), h.dedup.length ≤ 1000 →
        (evs.foldl processEvent h).dedup.length ≤ 1000) ∧
    (∀ (h : HookState) (e : SocketBreakoutEvent), eventKey e ∉ h.dedup →
        1000 ≤ h.dedup.length →
        (processEvent h e).dedup = (h.dedup ++ [eventKey e]).drop 500) ∧
    (events.foldl processEvent (initialHookState now)).dedup = (events.map eventKey).drop 500 ∧
    (events.foldl processEvent (initialHookState now)).dedup.length = 501 := by
  have hevict : ∀ (h : HookState) (e : SocketBreakoutEvent), eventKey e ∉ h.dedup →
      1000 ≤ h.dedup.length →
      (processEvent h e).dedup = (h.dedup ++ [eventKey e]).drop 500 := by
    intro h e hm hge
    rw [processEvent_not_mem h e hm]
    dsimp only
    rw [if_pos]
    simp only [List.length_append, List.length_singleton]
    omega
  have hmain : (events.foldl processEvent (initialHookState now)).dedup
      = (events.map eventKey).drop 500 := by
    rcases List.eq_nil_or_concat events with rfl | ⟨es, e, rfl⟩
    · simp at hlen
    · rw [List.concat_eq_append] at *
      have heslen : es.length = 1000 := by
        simp only [List.length_append, List.length_singleton] at hlen
        omega
      have hnd' : (es.map eventKey).Nodup ∧ eventKey e ∉ es.map eventKey := by
        rw [List.map_append, List.map_singleton] at hnd
        have h' := List.nodup_append.mp hnd
        exact ⟨h'.1, fun hmem => h'.2.2 hmem (List.mem_singleton_self _)⟩
      have hfold : (es.foldl processEvent (initialHookState now)).dedup = es.map eventKey := by
        have := foldl_processEvent_dedup_distinct es (initialHookState now)
          (by simpa [initialHookState] using hnd'.1)
          (by simp [initialHookState, heslen])
        simpa [initialHookState] using this
      rw [List.foldl_append, List.foldl_cons, List.foldl_nil]
      rw [hevict _ e (by rw [hfold]; exact hnd'.2) (by rw [hfold]; simp [heslen])]
      rw [hfold, List.map_append, List.map_singleton]
  refine ⟨fun evs h hle => foldl_processEvent_dedup_le evs h hle, hevict, hmain, ?_⟩
  rw [hmain]
  simp [hlen]

def c4Event (i : Nat) : SocketBreakoutEvent :=
  { type := .message_received
    sessionId := "s"
    roomId := none
    participantId := none
    data := ⟨none, none, none, none, none, none⟩
    timestamp := String.mk (List.replicate i 'a') }

def c4Events : List SocketBreakoutEvent := (List.range 1001).map c4Event

theorem length_mk_string (l : List Char) : (String.mk l).length = l.length := rfl

theorem c4Event_key_length (i : Nat) : (eventKey (c4Event i)).length = 24 + i := by
  have h1 : eventKey (c4Event i)
      = "message_received" ++ "_" ++ "global" ++ "_" ++ String.mk (List.replicate i 'a') := rfl
  rw [h1]
  simp only [String.length_append, length_mk_string, List.length_replicate]
  rw [show ("message_received" : String).length = 16 from rfl,
      show ("_" : String).length = 1 from rfl,
      show ("global" : String).length = 6 from rfl]

theorem c4Event_key_inj : Function.Injective fun i => eventKey (c4Event i) := by
  intro i j hij
  have h := congrArg String.length hij
  simp only [c4Event_key_length] at h
  omega

theorem c4Events_nodup : (c4Events.map eventKey).Nodup := by
  have h : c4Events.map eventKey = (List.range 1001).map fun i => eventKey (c4Event i) := by
    simp [c4Events, List.map_map]
  rw [h]
  exact (List.nodup_range 1001).map c4Event_key_inj

theorem c4Events_length : c4Events.length = 1001 := by
  simp [c4Events]

/-- Witness for C4 at a concrete list of 1001 events with pairwise
distinct keys. -/
theorem c4_witness :
    (∀ (evs : List SocketBreakoutEvent) (h : HookState), h.dedup.length ≤ 1000 →
        (evs.foldl processEvent h).dedup.length ≤ 1000) ∧
    (∀ (h : HookState) (e : SocketBreakoutEvent), eventKey e ∉ h.dedup →
        1000 ≤ h.dedup.length →
        (processEvent h e).dedup = (h.dedup ++ [eventKey e]).drop 500) ∧
    (c4Events.foldl processEvent (initialHookState "t0")).dedup
      = (c4Events.map eventKey).drop 500 ∧
    (c4Events.foldl processEvent (initialHookState "t0")).dedup.length = 501 :=
  c4_dedup_memory_bounded c4Events "t0" c4Events_nodup c4Events_length

def c5Room0 : Room := { id := "", name := "", currentParticipants := 0,
                        maxParticipants := 0, participants := [], status := "" }

def c5ApiEnv : ApiEnv :=
  { token := none
    tokenValid := false
    backendRes := ⟨false, none, none⟩
    apiRes := ⟨false, c5Room0, none⟩
    legacyRes := ⟨false, 500, "Internal Server Error", c5Room0⟩
    listAt := fun _ => ⟨false, none⟩ }

def c5Env : CreateEnv :=
  { permission := ⟨true, none⟩
    socketConnected := false
    socketTimeline := []
    api := c5ApiEnv }

/-- A configuration whose name is a single space: non-empty, but blank. -/
def c5CfgBlank : CreateRoomConfig :=
  { name := " ", topic := none, maxParticipants := 6, duration := 30, facilitatorId := "f" }

/-- Counterexample to C5 as stated: with `maxParticipants = 6` and the
non-empty name `" "`, `createBreakoutRoom` still fails validation with
`Room name is required` and makes no network call — the source validates
`config.name.trim()`, not mere non-emptiness. -/
theorem c5_counterexample :
    c5CfgBlank.name ≠ "" ∧ c5CfgBlank.maxParticipants = 6 ∧
    createBreakoutRoom c5Env "s1" c5CfgBlank
      = ({ success := false, room := none, error := some "Room name is required" }, []) :=
  ⟨by decide, rfl, rfl⟩

/-- C5 (amended): `createBreakoutRoom` validates, before any network
call, that the name is non-blank (nonempty after trimming whitespace) and
that `2 ≤ maxParticipants ≤ 20`, failing fast with the corresponding
validation error and an empty network trace otherwise; when validation
passes it proceeds to the network (the trace begins with the debug
fetch). -/
theorem c5_create_validation (env : CreateEnv) (sid : String) (cfg : CreateRoomConfig) :
    (jsTrim cfg.name = "" →
        createBreakoutRoom env sid cfg
          = ({ success := false, room := none, error := some "Room name is required" }, [])) ∧
    (jsTrim cfg.name ≠ "" → (cfg.maxParticipants < 2 ∨ 20 < cfg.maxParticipants) →
        createBreakoutRoom env sid cfg
          = ({ success := false, room := none,
               error := some "Max participants must be between 2 and 20" }, [])) ∧
    (jsTrim cfg.name ≠ "" → 2 ≤ cfg.maxParticipants → cfg.maxParticipants ≤ 20 →
        ∃ rest, (createBreakoutRoom env sid cfg).2 = .debugFetch :: rest) := by
  refine ⟨?_, ?_, ?_⟩
  · intro hn
    simp [createBreakoutRoom, hn]
  · intro hn hmp
    simp [createBreakoutRoom, hn, hmp]
  · intro hn h2 h20
    have hmp : ¬ (cfg.maxParticipants < 2 ∨ 20 < cfg.maxParticipants) := by omega
    simp only [createBreakoutRoom, if_neg hn, if_neg hmp]
    by_cases hp : env.permission.valid
    · simp only [hp, not_true, if_neg (by simp : ¬ ¬ True)]
      by_cases hs : env.socketConnected
      · simp only [hs, if_pos trivial, if_true]
        cases resolveRace sid cfg.name env.socketTimeline <;> exact ⟨_, rfl⟩
      · simp only [hs, if_false]
        exact ⟨_, rfl⟩
    · simp only [hp]
      exact ⟨_, rfl⟩

def c5Cfg1 : CreateRoomConfig :=
  { name := "Focus", topic := none, maxParticipants := 1, duration := 30, facilitatorId := "f" }

def c5Cfg21 : CreateRoomConfig :=
  { name := "Focus", topic := none, maxParticipants := 21, duration := 30, facilitatorId := "f" }

def c5Cfg6 : CreateRoomConfig :=
  { name := "Focus", topic := none, maxParticipants := 6, duration := 30, facilitatorId := "f" }

/-- Witness for the amended C5: `maxParticipants = 1` and `21` fail fast
with no network call; `maxParticipants = 6` with a non-blank name passes
validation and reaches the network. -/
theorem c5_witness :
    createBreakoutRoom c5Env "s1" c5Cfg1
      = ({ success := false, room := none,
           error := some "Max participants must be between 2 and 20" }, []) ∧
    createBreakoutRoom c5Env "s1" c5Cfg21
      = ({ success := false, room := none,
           error := some "Max participants must be between 2 and 20" }, []) ∧
    ∃ rest, (createBreakoutRoom c5Env "s1" c5Cfg6).2 = .debugFetch :: rest :=
  ⟨(c5_create_validation c5Env "s1" c5Cfg1).2.1 (by decide) (by decide),
   (c5_create_validation c5Env "s1" c5Cfg21).2.1 (by decide) (by decide),
   (c5_create_validation c5Env "s1" c5Cfg6).2.2 (by decide) (by decide) (by decide)⟩

/-- C6: with the transport connected (and validation and permission
passing), the create operation resolves success with the server-provided
room when the acknowledgment race yields a matching `created` event, and
on an explicit error event or on timeout it falls back to the REST path
instead of failing; a matching `created` occurrence earlier than the
8000 ms timer wins the race, and a timeline whose occurrences all arrive
at or after 8000 ms times out. -/
theorem c6_socket_create_race (env : CreateEnv) (sid : String) (cfg : CreateRoomConfig)
    (hname : jsTrim cfg.name ≠ "")
    (h2 : 2 ≤ cfg.maxParticipants) (h20 : cfg.maxParticipants ≤ 20)
    (hperm : env.permission.valid = true)
    (hconn : env.socketConnected = true) :
    (∀ r, resolveRace sid cfg.name env.socketTimeline = .success r →
        createBreakoutRoom env sid cfg
          = ({ success := true, room := some r, error := none },
             [.debugFetch, .permissionCheck, .socketEmitCreate])) ∧
    (∀ m, resolveRace sid cfg.name env.socketTimeline = .errorResolved m →
        createBreakoutRoom env sid cfg
          = (wrapApi (createRoomViaAPI env.api cfg).1,
             [.debugFetch, .permissionCheck, .socketEmitCreate] ++ (createRoomViaAPI env.api cfg).2)) ∧
    (resolveRace sid cfg.name env.socketTimeline = .timeout →
        createBreakoutRoom env sid cfg
          = (wrapApi (createRoomViaAPI env.api cfg).1,
             [.debugFetch, .permissionCheck, .socketEmitCreate] ++ (createRoomViaAPI env.api cfg).2)) ∧
    (∀ t d r rest, env.socketTimeline = (t, .created d) :: rest → t < 8000 →
        d.sessionId = sid → d.room = some r → r.name = cfg.name →
        resolveRace sid cfg.name env.socketTimeline = .success r) ∧
    ((∀ p ∈ env.socketTimeline, 8000 ≤ p.1) →
        resolveRace sid cfg.name env.socketTimeline = .timeout) := by
  have hmp : ¬ (cfg.maxParticipants < 2 ∨ 20 < cfg.maxParticipants) := by omega
  refine ⟨?_, ?_, ?_, ?_, ?_⟩
  · intro r hr
    simp [createBreakoutRoom, if_neg hname, if_neg hmp, hperm, hconn, hr]
  · intro m hm
    simp [createBreakoutRoom, if_neg hname, if_neg hmp, hperm, hconn, hm]
  · intro hm
    simp [createBreakoutRoom, if_neg hname, if_neg hmp, hperm, hconn, hm]
  · intro t d r rest htl ht hsid hroom hrname
    rw [htl]
    simp [resolveRace, Nat.not_le.mpr ht, hroom, hsid, hrname]
  · intro hall
    cases htl : env.socketTimeline with
    | nil => rfl
    | cons p rest =>
        obtain ⟨t, ev⟩ := p
        have := hall (t, ev) (by rw [htl]; exact List.mem_cons_self _ _)
        simp [resolveRace, this]

def c6Room : Room :=
  { id := "r9", name := "Focus", currentParticipants := 0, maxParticipants := 6,
    participants := [], status := "waiting" }

def c6Cfg : CreateRoomConfig :=
  { name := "Focus", topic := none, maxParticipants := 6, duration := 30, facilitatorId := "f" }

def c6Env : CreateEnv :=
  { permission := ⟨true, none⟩
    socketConnected := true
    socketTimeline := [(100, .created ⟨"s1", some c6Room⟩)]
    api := c5ApiEnv }

/-- Witness for C6 at a concrete connected environment whose matching
`breakout_room_created` event arrives 100 ms after the emit. -/
theorem c6_witness :
    (∀ r, resolveRace "s1" c6Cfg.name c6Env.socketTimeline = .success r →
        createBreakoutRoom c6Env "s1" c6Cfg
          = ({ success := true, room := some r, error := none },
             [.debugFetch, .permissionCheck, .socketEmitCreate])) ∧
    (∀ m, resolveRace "s1" c6Cfg.name c6Env.socketTimeline = .errorResolved m →
        createBreakoutRoom c6Env "s1" c6Cfg
          = (wrapApi (createRoomViaAPI c6Env.api c6Cfg).1,
             [.debugFetch, .permissionCheck, .socketEmitCreate] ++ (createRoomViaAPI c6Env.api c6Cfg).2)) ∧
    (resolveRace "s1" c6Cfg.name c6Env.socketTimeline = .timeout →
        createBreakoutRoom c6Env "s1" c6Cfg
          = (wrapApi (createRoomViaAPI c6Env.api c6Cfg).1,
             [.debugFetch, .permissionCheck, .socketEmitCreate] ++ (createRoomViaAPI c6Env.api c6Cfg).2)) ∧
    (∀ t d r rest, c6Env.socketTimeline = (t, .created d) :: rest → t < 8000 →
        d.sessionId = "s1" → d.room = some r → r.name = c6Cfg.name →
        resolveRace "s1" c6Cfg.name c6Env.socketTimeline = .success r) ∧
    ((∀ p ∈ c6Env.socketTimeline, 8000 ≤ p.1) →
        resolveRace "s1" c6Cfg.name c6Env.socketTimeline = .timeout) :=
  c6_socket_create_race c6Env "s1" c6Cfg (by decide) (by decide) (by decide) rfl rfl

theorem pollLoop_trace_bound (listAt : Nat → RoomsQueryResult) (name : String)
    (intervalMs : Nat) (fuel attempt : Nat) :
    (pollLoop listAt name intervalMs attempt fuel).2.count NetAction.listRooms ≤ fuel ∧
    (∀ ms, NetAction.sleepMs ms ∈ (pollLoop listAt name intervalMs attempt fuel).2 →
        ms = intervalMs) := by
  induction fuel generalizing attempt with
  | zero => simp [pollLoop]
  | succ n ih =>
      cases hf : pollFound (listAt attempt) name with
      | some r =>
          simp [pollLoop, hf, List.count_cons]
      | none =>
          have ihn := ih (attempt + 1)
          refine ⟨?_, ?_⟩
          · simp only [pollLoop, hf]
            have h1 := ihn.1
            simp [List.count_cons]
            omega
          · intro ms hms
            simp only [pollLoop, hf, List.mem_cons] at hms
            rcases hms with h | h | h
            · exact absurd h (by simp)
            · simpa using h
            · exact ihn.2 ms h

/-- C7: on the REST create path, when both modern attempts fail and the
API error mentions 404, the legacy endpoint is tried before any error
surfaces; a successful legacy response is a success, and when the legacy
attempt also fails the room-list query is polled — at most 6 attempts,
1000 ms spacing — and a room appearing under the requested name is
treated as a delayed success, the HTTP error surfacing only when the poll
finds nothing. -/
theorem c7_rest_fallback_chain (env : ApiEnv) (cfg : CreateRoomConfig) (tk err : String)
    (htk : env.token = some tk) (htkne : tk ≠ "") (hval : env.tokenValid = true)
    (hbe : env.backendRes.success = false)
    (hae : env.apiRes.success = false)
    (herr : env.apiRes.error = some err) (h404 : is404Error err = true) :
    NetAction.legacyCreate ∈ (createRoomViaAPI env cfg).2 ∧
    (env.legacyRes.ok = true → (createRoomViaAPI env cfg).1 = .ok env.legacyRes.extractedRoom) ∧
    (env.legacyRes.ok = false →
        (∀ r, (pollForRoomByName env.listAt cfg.name 6 1000).1 = some r →
            (createRoomViaAPI env cfg).1 = .ok r) ∧
        ((pollForRoomByName env.listAt cfg.name 6 1000).1 = none →
            (createRoomViaAPI env cfg).1
              = .error ("HTTP " ++ toString env.legacyRes.status ++ ": "
                          ++ env.legacyRes.statusText)) ∧
        (pollForRoomByName env.listAt cfg.name 6 1000).2.count NetAction.listRooms ≤ 6 ∧
        (∀ ms, NetAction.sleepMs ms ∈ (pollForRoomByName env.listAt cfg.name 6 1000).2 →
            ms = 1000)) := by
  have hred : createRoomViaAPI env cfg =
      (if env.legacyRes.ok then
        (.ok env.legacyRes.extractedRoom, [.backendCreate, .apiCreate, .legacyCreate])
      else
        match (pollForRoomByName env.listAt cfg.name 6 1000).1 with
        | some r => (.ok r,
            [.backendCreate, .apiCreate, .legacyCreate]
              ++ (pollForRoomByName env.listAt cfg.name 6 1000).2)
        | none => (.error ("HTTP " ++ toString env.legacyRes.status ++ ": "
                             ++ env.legacyRes.statusText),
            [.backendCreate, .apiCreate, .legacyCreate]
              ++ (pollForRoomByName env.listAt cfg.name 6 1000).2)) := by
    simp [createRoomViaAPI, htk, htkne, hval, hbe, hae, herr, h404]
  by_cases hok : env.legacyRes.ok
  · refine ⟨?_, fun _ => ?_, fun hcontra => absurd hok (by simp [hcontra])⟩
    · rw [hred, if_pos hok]
      simp
    · rw [hred, if_pos hok]
  · have hbound := pollLoop_trace_bound env.listAt cfg.name 1000 6 0
    refine ⟨?_, fun hcontra => absurd hcontra (by simp [hok]), fun _ => ⟨?_, ?_, hbound.1, hbound.2⟩⟩
    · rw [hred, if_neg hok]
      cases (pollForRoomByName env.listAt cfg.name 6 1000).1 <;> simp
    · intro r hr
      rw [hred, if_neg hok]
      rw [hr]
    · intro hr
      rw [hred, if_neg hok]
      rw [hr]

def c7Room : Room :=
  { id := "r7", name := "Focus", currentParticipants := 0, maxParticipants := 6,
    participants := [], status := "waiting" }

def c7ApiEnv : ApiEnv :=
  { token := some "tok"
    tokenValid := true
    backendRes := ⟨false, none, some "Failed to create breakout room"⟩
    apiRes := ⟨false, c5Room0, some "HTTP 404: Not Found"⟩
    legacyRes := ⟨false, 500, "Internal Server Error", c5Room0⟩
    listAt := fun n => if n = 2 then ⟨true, some [c7Room]⟩ else ⟨false, none⟩ }

/-- Witness for C7 at a concrete environment whose API attempt reports a
404 and whose third list query reveals the room. -/
theorem c7_witness :
    NetAction.legacyCreate ∈ (createRoomViaAPI c7ApiEnv c5Cfg6).2 ∧
    (c7ApiEnv.legacyRes.ok = true →
        (createRoomViaAPI c7ApiEnv c5Cfg6).1 = .ok c7ApiEnv.legacyRes.extractedRoom) ∧
    (c7ApiEnv.legacyRes.ok = false →
        (∀ r, (pollForRoomByName c7ApiEnv.listAt c5Cfg6.name 6 1000).1 = some r →
            (createRoomViaAPI c7ApiEnv c5Cfg6).1 = .ok r) ∧
        ((pollForRoomByName c7ApiEnv.listAt c5Cfg6.name 6 1000).1 = none →
            (createRoomViaAPI c7ApiEnv c5Cfg6).1
              = .error ("HTTP " ++ toString c7ApiEnv.legacyRes.status ++ ": "
                          ++ c7ApiEnv.legacyRes.statusText)) ∧
        (pollForRoomByName c7ApiEnv.listAt c5Cfg6.name 6 1000).2.count NetAction.listRooms ≤ 6 ∧
        (∀ ms, NetAction.sleepMs ms ∈ (pollForRoomByName c7ApiEnv.listAt c5Cfg6.name 6 1000).2 →
            ms = 1000)) :=
  c7_rest_fallback_chain c7ApiEnv c5Cfg6 "tok" "HTTP 404: Not Found" rfl (by decide) rfl rfl
    rfl rfl (by decide)

def c8State : BreakoutState :=
  { rooms := []
    participants := []
    currentRoom := none
    lastUpdate := "t0"
    connectionStatus := .disconnected
    messageQueue := [] }

/-- C8 (divergence exhibited): while disconnected, `createRoom`,
`joinRoom`, `leaveRoom` and `sendMessage` do raise `Socket not connected`,
but `updateRoom`, `deleteRoom`, `updateParticipant`, `moderateParticipant`
and `sendReaction` perform no connectivity check at all: they resolve
successfully and emit into the disconnected transport, contradicting the
requirement that every transport-dependent operation raise a
distinguishable not-connected condition. -/
theorem c8_disconnected_operations :
    createRoom c8State = .error "Socket not connected" ∧
    joinRoom c8State "room-1" = .error "Socket not connected" ∧
    leaveRoom c8State "room-1" = .error "Socket not connected" ∧
    sendMessage c8State "room-1" = .error "Socket not connected" ∧
    updateRoom c8State "room-1" = .ok ([⟨.update_breakout_room, some "room-1"⟩], c8State) ∧
    deleteRoom c8State "room-1" = .ok ([⟨.delete_breakout_room, some "room-1"⟩], c8State) ∧
    updateParticipant c8State "room-1" "p1"
      = .ok ([⟨.update_breakout_participant, some "room-1"⟩], c8State) ∧
    moderateParticipant c8State "room-1"
      = .ok ([⟨.moderate_breakout_participant, some "room-1"⟩], c8State) ∧
    sendReaction c8State "room-1"
      = .ok ([⟨.send_breakout_reaction, some "room-1"⟩], c8State) := by
  refine ⟨rfl, rfl, rfl, rfl, rfl, rfl, rfl, rfl, rfl⟩

/-- Replace only the `lastUpdate` stamp of a hook state. -/
def setLU (h : HookState) (lu : String) : HookState :=
  { h with st := { h.st with lastUpdate := lu } }

theorem applyEventCore_currentRoom_none (c : CoreState) (e : SocketBreakoutEvent)
    (hc : c.currentRoom = none) : (applyEventCore c e).currentRoom = none := by
  rcases e with ⟨ty, sid, rid, pid, data, ts⟩
  cases ty <;> dsimp only [applyEventCore] <;>
    (repeat' split) <;> simp_all

theorem processEvent_connectionStatus (h : HookState) (e : SocketBreakoutEvent) :
    (processEvent h e).st.connectionStatus = h.st.connectionStatus := by
  by_cases hm : eventKey e ∈ h.dedup
  · rw [processEvent_of_mem h e hm]
  · rw [processEvent_not_mem h e hm]
    rfl

theorem processEvent_messageQueue (h : HookState) (e : SocketBreakoutEvent) :
    (processEvent h e).st.messageQueue = h.st.messageQueue := by
  by_cases hm : eventKey e ∈ h.dedup
  · rw [processEvent_of_mem h e hm]
  · rw [processEvent_not_mem h e hm]
    rfl

theorem processEvent_currentRoom_none (h : HookState) (e : SocketBreakoutEvent)
    (hc : h.st.currentRoom = none) : (processEvent h e).st.currentRoom = none := by
  by_cases hm : eventKey e ∈ h.dedup
  · rw [processEvent_of_mem h e hm]
    exact hc
  · rw [processEvent_not_mem h e hm]
    exact applyEventCore_currentRoom_none ⟨h.st.rooms, h.st.participants, h.st.currentRoom⟩ e hc

theorem foldl_processEvent_connectionStatus (E : List SocketBreakoutEvent) (h : HookState) :
    (E.foldl processEvent h).st.connectionStatus = h.st.connectionStatus := by
  induction E generalizing h with
  | nil => rfl
  | cons e rest ih => rw [List.foldl_cons, ih, processEvent_connectionStatus]

theorem foldl_processEvent_messageQueue (E : List SocketBreakoutEvent) (h : HookState) :
    (E.foldl processEvent h).st.messageQueue = h.st.messageQueue := by
  induction E generalizing h with
  | nil => rfl
  | cons e rest ih => rw [List.foldl_cons, ih, processEvent_messageQueue]

theorem foldl_processEvent_currentRoom_none (E : List SocketBreakoutEvent) (h : HookState)
    (hc : h.st.currentRoom = none) : (E.foldl processEvent h).st.currentRoom = none := by
  induction E generalizing h with
  | nil => exact hc
  | cons e rest ih => exact ih _ (processEvent_currentRoom_none h e hc)

theorem processEvent_setLU (h : HookState) (e : SocketBreakoutEvent) (lu : String) :
    processEvent (setLU h lu) e
      = if eventKey e ∈ h.dedup then setLU h lu else processEvent h e := by
  by_cases hm : eventKey e ∈ h.dedup
  · rw [if_pos hm]
    exact processEvent_of_mem (setLU h lu) e hm
  · rw [if_neg hm, processEvent_not_mem (setLU h lu) e hm, processEvent_not_mem h e hm]
    rfl

theorem foldl_processEvent_setLU (E : List SocketBreakoutEvent) (h : HookState) (lu : String) :
    E.foldl processEvent (setLU h lu) = E.foldl processEvent h ∨
    E.foldl processEvent (setLU h lu) = setLU (E.foldl processEvent h) lu := by
  induction E generalizing h with
  | nil => right; rfl
  | cons e rest ih =>
      rw [List.foldl_cons, List.foldl_cons, processEvent_setLU]
      by_cases hm : eventKey e ∈ h.dedup
      · rw [if_pos hm, processEvent_of_mem h e hm]
        exact ih h
      · rw [if_neg hm]
        left
        rfl

theorem setLU_self (g : HookState) : setLU g g.st.lastUpdate = g := rfl

/-- C9 (amended): starting from a pristine hook state, replaying an event
sequence after `clearCache` reproduces exactly the state of the original
uninterrupted run; `clearCache` itself empties the rooms map, participants
map and dedup memory while preserving the current-room pointer, the
last-update timestamp and the connection status. -/
theorem c9_clear_and_replay (E : List SocketBreakoutEvent) (h0 : HookState)
    (hrooms : h0.st.rooms = []) (hparts : h0.st.participants = [])
    (hcur : h0.st.currentRoom = none) (hq : h0.st.messageQueue = [])
    (hd : h0.dedup = []) :
    E.foldl processEvent (clearCache (E.foldl processEvent h0)) = E.foldl processEvent h0 ∧
    (∀ g : HookState,
        (clearCache g).st.currentRoom = g.st.currentRoom ∧
        (clearCache g).st.lastUpdate = g.st.lastUpdate ∧
        (clearCache g).st.connectionStatus = g.st.connectionStatus ∧
        (clearCache g).st.rooms = [] ∧ (clearCache g).st.participants = [] ∧
        (clearCache g).dedup = []) := by
  refine ⟨?_, fun g => ⟨rfl, rfl, rfl, rfl, rfl, rfl⟩⟩
  have hFcur : (E.foldl processEvent h0).st.currentRoom = none :=
    foldl_processEvent_currentRoom_none E h0 hcur
  have hFconn : (E.foldl processEvent h0).st.connectionStatus = h0.st.connectionStatus :=
    foldl_processEvent_connectionStatus E h0
  have hclear : clearCache (E.foldl processEvent h0)
      = setLU h0 (E.foldl processEvent h0).st.lastUpdate := by
    have h1 : clearCache (E.foldl processEvent h0)
        = ⟨⟨[], [], (E.foldl processEvent h0).st.currentRoom,
            (E.foldl processEvent h0).st.lastUpdate,
            (E.foldl processEvent h0).st.connectionStatus, []⟩, []⟩ := rfl
    have h2 : setLU h0 (E.foldl processEvent h0).st.lastUpdate
        = ⟨⟨h0.st.rooms, h0.st.participants, h0.st.currentRoom,
            (E.foldl processEvent h0).st.lastUpdate,
            h0.st.connectionStatus, h0.st.messageQueue⟩, h0.dedup⟩ := rfl
    rw [h1, h2, hrooms, hparts, hcur, hq, hd, hFcur, hFconn]
  rw [hclear]
  rcases foldl_processEvent_setLU E h0 (E.foldl processEvent h0).st.lastUpdate with h | h
  · exact h
  · rw [h, setLU_self]

def c9Room : Room :=
  { id := "r1", name := "Focus", currentParticipants := 0, maxParticipants := 6,
    participants := [], status := "waiting" }

def c9Init : HookState := initialHookState "t0"

def c9Event : SocketBreakoutEvent :=
  { type := .room_created
    sessionId := "s"
    roomId := some "r1"
    participantId := none
    data := ⟨some c9Room, none, none, none, none, none⟩
    timestamp := "t1" }

/-- Counterexample to C9's description of `clearCache` as clearing the
projection entirely: after folding one event and clearing, the rooms map
is empty but the projection still carries the event's `lastUpdate` stamp
`t1`, so it differs from the pristine projection it started from. -/
theorem c9_counterexample :
    (clearCache (processEvent c9Init c9Event)).st.rooms = [] ∧
    (clearCache (processEvent c9Init c9Event)).st.lastUpdate = "t1" ∧
    (clearCache (processEvent c9Init c9Event)).st ≠ c9Init.st :=
  ⟨rfl, rfl, by decide⟩

/-- Witness for the amended C9 at a concrete one-event sequence. -/
theorem c9_witness :
    [c9Event].foldl processEvent (clearCache ([c9Event].foldl processEvent c9Init))
      = [c9Event].foldl processEvent c9Init ∧
    (∀ g : HookState,
        (clearCache g).st.currentRoom = g.st.currentRoom ∧
        (clearCache g).st.lastUpdate = g.st.lastUpdate ∧
        (clearCache g).st.connectionStatus = g.st.connectionStatus ∧
        (clearCache g).st.rooms = [] ∧ (clearCache g).st.participants = [] ∧
        (clearCache g).dedup = []) :=
  c9_clear_and_replay [c9Event] c9Init rfl rfl rfl rfl rfl

/-- C10: the hook's publicly returned `currentRoom` is the rooms-map entry
under the current-room identifier whenever that identifier is set (truthy,
i.e. nonempty) — and is `null` whenever the identifier is unset or no room
with that identifier exists; in particular, right after `joinRoom`
optimistically points at a room id absent from the rooms map, the derived
`currentRoom` is `null` rather than a stale record. -/
theorem c10_derived_current_room (st : BreakoutState) :
    (st.currentRoom = none → derivedCurrentRoom st = none) ∧
    (∀ rid, st.currentRoom = some rid → rid ≠ "" →
        derivedCurrentRoom st = mapGet st.rooms rid) ∧
    (∀ rid, st.currentRoom = some rid → mapGet st.rooms rid = none →
        derivedCurrentRoom st = none) ∧
    (∀ rid tr st', st.connectionStatus = .connected →
        joinRoom st rid = .ok (tr, st') → mapGet st'.rooms rid = none →
        derivedCurrentRoom st' = none) := by
  refine ⟨?_, ?_, ?_, ?_⟩
  · intro h
    simp [derivedCurrentRoom, h]
  · intro rid h hne
    simp [derivedCurrentRoom, h, hne]
  · intro rid h hnone
    by_cases hr : rid = "" <;> simp [derivedCurrentRoom, h, hr, hnone]
  · intro rid tr st' hconn hjoin hnone
    have hst : st' = { st with currentRoom := some rid, connectionStatus := .connected } := by
      simp [joinRoom, hconn] at hjoin
      exact hjoin.2.symm
    subst hst
    by_cases hr : rid = "" <;> simp_all [derivedCurrentRoom]

def c10State : BreakoutState :=
  { rooms := [("r1", c9Room)]
    participants := []
    currentRoom := some "r1"
    lastUpdate := "t0"
    connectionStatus := .connected
    messageQueue := [] }

/-- Witness for C10 at a concrete state pointing at an existing room
(from which `joinRoom` toward the absent room `r9` can also be taken). -/
theorem c10_witness :
    (c10State.currentRoom = none → derivedCurrentRoom c10State = none) ∧
    (∀ rid, c10State.currentRoom = some rid → rid ≠ "" →
        derivedCurrentRoom c10State = mapGet c10State.rooms rid) ∧
    (∀ rid, c10State.currentRoom = some rid → mapGet c10State.rooms rid = none →
        derivedCurrentRoom c10State = none) ∧
    (∀ rid tr st', c10State.connectionStatus = .connected →
        joinRoom c10State rid = .ok (tr, st') → mapGet st'.rooms rid = none →
        derivedCurrentRoom st' = none) :=
  c10_derived_current_room c10State
